import Mathlib

/-!
Shallow embedding of the `ad_pi_fw` audio-processing core.

The embedding covers `src/modules/audio_processor.py` (class `AudioProcessor`:
methods `monotone`, `normalize_data`, `pre_emphasize`, `oversample`) and
`src/modules/am_modulator.py` (class `AmModulator`: method `modulate`).

Modelling conventions:
* numpy float arrays are modelled with exact rational arithmetic (`ℚ`);
  `astype(np.float32)` is the identity in this exact model.  The modulator's
  cosine carrier is modelled over `ℝ` with `Real.cos`.
* a numpy array of dimension 0, 1 or 2 is an `AData`; the loader
  (`scipy.io.wavfile.read`) only ever produces 1-D or 2-D arrays, so higher
  dimensions are not represented.
* each `AudioProcessor` method mutates `self.audio_data` / `self.sample_rate`
  and may raise `ValueError`; it is embedded as a function
  `AudioState → AudioState × Option String` returning the post-call state
  together with the raised message (`none` on normal return).  Assignments
  executed before a raise are kept in the post-call state, exactly as in
  Python.
* `np.interp` / `np.linspace` are embedded over `ℚ` below (`npLinspace`,
  `interpGrid`).
-/

namespace AdPiFw

/-- A numpy array of floats of dimension 0, 1 or 2 (the only shapes the
repository's loader can produce): a scalar, a vector, or a matrix given as a
list of rows. -/
inductive AData where
  | d0 (x : ℚ)
  | d1 (xs : List ℚ)
  | d2 (xss : List (List ℚ))
deriving DecidableEq

/-- Embeds `arr.ndim`. -/
def AData.ndim : AData → ℕ
  | .d0 _ => 0
  | .d1 _ => 1
  | .d2 _ => 2

/-- Embeds `arr.size` (total number of elements), used to model numpy's zero-size
reduction error. -/
def AData.size : AData → ℕ
  | .d0 _ => 1
  | .d1 xs => xs.length
  | .d2 xss => (xss.map List.length).sum

/-- Embeds `np.max(np.abs(xs))` over a flat list; with a `0` base, which is exact for
the non-empty lists it is applied to since `|x| ≥ 0`. -/
def listAbsMax (xs : List ℚ) : ℚ := xs.foldr (fun x m => max |x| m) 0

/-- Embeds `np.max(np.abs(arr))`: the maximum of the absolute values of all
elements. -/
def AData.absMax : AData → ℚ
  | .d0 x => |x|
  | .d1 xs => listAbsMax xs
  | .d2 xss => listAbsMax (xss.foldr (· ++ ·) [])

/-- Elementwise `arr / c`. -/
def AData.divBy : AData → ℚ → AData
  | .d0 x, c => .d0 (x / c)
  | .d1 xs, c => .d1 (xs.map (· / c))
  | .d2 xss, c => .d2 (xss.map (fun row => row.map (· / c)))

/-- Embeds `np.mean(arr, axis=1)` for a 2-D array: the per-row average, i.e. the
average across channels of each frame.  Only ever applied when `ndim > 1`,
exactly as in the source. -/
def AData.meanAxis1 : AData → AData
  | .d2 xss => .d1 (xss.map (fun row => row.sum / (row.length : ℚ)))
  | a => a

/-- Embeds `xs.reshape(-1, 1)` for a 1-D array of length N: the (N, 1) column. -/
def colOf (xs : List ℚ) : AData := .d2 (xs.map (fun x => [x]))

/-- The mutable state of an `AudioProcessor` instance: `self.audio_data` and
`self.sample_rate` (both `None` until `load_audio` runs). -/
structure AudioState where
  audio_data : Option AData
  sample_rate : Option ℚ
deriving DecidableEq

/-- Embeds `AudioProcessor.monotone` (audio_processor.py lines 49-63): collapse the
stored data to a single channel by averaging across channels, convert to
float32, and store it reshaped as an (N, 1) column. -/
def monotone (st : AudioState) : AudioState × Option String :=
  match st.audio_data with
  | none => (st, some "Audio data is not loaded. Please load an audio file first.")
  | some ad =>
    if ad.ndim = 0 then
      (st, some "Audio data is not valid. Ensure the audio file is loaded correctly.")
    else
      let ad1 := if 1 < ad.ndim then ad.meanAxis1 else ad
      match ad1 with
      | .d1 xs => ({ st with audio_data := some (colOf xs) }, none)
      | other =>
        ({ st with audio_data := some other },
          some "Audio data is not in a valid format for monotone conversion.")

/-- Embeds `AudioProcessor.normalize_data` (audio_processor.py lines 65-79): divide
every stored sample by the global peak `np.max(np.abs(data))`, raising when
the peak is zero; the scaled data is stored before the trailing
dimensionality check, so a 2-D input is mutated and then raises. -/
def normalize_data (st : AudioState) : AudioState × Option String :=
  match st.audio_data with
  | none => (st, some "Audio data is not loaded. Please load an audio file first.")
  | some ad =>
    if ad.size = 0 then
      (st, some "zero-size array to reduction operation maximum which has no identity")
    else
      let maxVal := ad.absMax
      if maxVal = 0 then
        (st, some "Audio data cannot be normalized because it contains only zeros.")
      else
        let ad1 := ad.divBy maxVal
        match ad1 with
        | .d1 xs => ({ st with audio_data := some (colOf xs) }, none)
        | other =>
          ({ st with audio_data := some other },
            some "Audio data is not in a valid format for normalization.")

/-- The value-level pre-emphasis recurrence of audio_processor.py line 92:
`np.append(x[0], x[1:] - alpha * x[:-1])`. -/
def preEmph (xs : List ℚ) (alpha : ℚ) : List ℚ :=
  match xs with
  | [] => []
  | x :: rest => x :: List.zipWith (fun cur prev => cur - alpha * prev) rest (x :: rest).dropLast

/-- Embeds `AudioProcessor.pre_emphasize` (audio_processor.py lines 81-97): requires
the stored data to be 1-D, applies the recurrence and stores the result as an
(N, 1) column.  On empty 1-D data, `self.audio_data[0]` raises IndexError
before any assignment. -/
def pre_emphasize (st : AudioState) (alpha : ℚ) : AudioState × Option String :=
  match st.audio_data with
  | none => (st, some "Audio data is not loaded. Please load an audio file first.")
  | some ad =>
    match ad with
    | .d1 xs =>
      if xs.isEmpty then
        (st, some "index 0 is out of bounds for axis 0 with size 0")
      else
        ({ st with audio_data := some (colOf (preEmph xs alpha)) }, none)
    | _ => (st, some "Pre-emphasis can only be applied to mono audio data.")

/-- Embeds `np.linspace(0, stop, num)`: `num` evenly spaced points from `0` to
`stop`, endpoint included.  For `num = 1` numpy returns `[0]`, which the
formula also yields because `q / 0 = 0` in `ℚ`. -/
def npLinspace (stop : ℕ) (num : ℕ) : List ℚ :=
  (List.range num).map (fun (i : ℕ) => (i : ℚ) * (stop : ℚ) / ((num - 1 : ℕ) : ℚ))

/-- Embeds `np.interp(p, np.arange(N), xs)` for the integer grid `0, …, N-1`:
clamp below `0` and above `N-1`, return `xs[k]` exactly at an integer
position `k`, and interpolate linearly in between. -/
def interpGrid (xs : List ℚ) (p : ℚ) : ℚ :=
  if p ≤ 0 then xs.headI
  else if (xs.length : ℚ) - 1 ≤ p then xs.getLastD 0
  else
    let k := (⌊p⌋).toNat
    xs.getD k 0 + (p - (k : ℚ)) * (xs.getD (k + 1) 0 - xs.getD k 0)

/-- Embeds `AudioProcessor.oversample` (audio_processor.py lines 99-120): check
`factor = output_frequency / sample_rate ≥ 1`, take
`num_samples = int(len(data) * factor)` (truncation), evaluate
`np.interp(np.linspace(0, len(data), num_samples), np.arange(len(data)),
data[:, 0])` and store it as an (N', 1) column at the new rate.  The column
indexing `data[:, 0]` raises on non-2-D data and on rows of width 0. -/
def oversample (st : AudioState) (output_frequency : ℚ) : AudioState × Option String :=
  match st.audio_data with
  | none => (st, some "Audio data is not loaded. Please load an audio file first.")
  | some ad =>
    match st.sample_rate with
    | none => (st, some "Sample rate is not set. Please load an audio file first.")
    | some sr =>
      let factor := output_frequency / sr
      if factor < 1 then
        (st, some "Output frequency must be greater than the original sample rate.")
      else
        match ad with
        | .d2 xss =>
          if xss.all (fun row => !row.isEmpty) then
            let n := xss.length
            let num_samples := (⌊(n : ℚ) * factor⌋).toNat
            let xs := xss.map List.headI
            let ys := (npLinspace n num_samples).map (interpGrid xs)
            ({ audio_data := some (colOf ys), sample_rate := some output_frequency }, none)
          else
            (st, some "index 0 is out of bounds for axis 1 with size 0")
        | .d1 _ => (st, some "too many indices for array")
        | .d0 _ => (st, some "len() of unsized object")

/-- The state of a processor holding the mono column of `xs` at rate `sr`:
the shape every successful conditioning step stores. -/
def colState (xs : List ℚ) (sr : ℚ) : AudioState :=
  { audio_data := some (colOf xs), sample_rate := some sr }

/-- The stored samples of a state read back as a flat list (first channel of
a 2-D array, the vector itself when 1-D). -/
def dataCol (st : AudioState) : List ℚ :=
  match st.audio_data with
  | some (.d2 xss) => xss.map List.headI
  | some (.d1 xs) => xs
  | _ => []

/-- Embeds `AmModulator` (am_modulator.py): carrier frequency, modulating signal and
sample rate. -/
structure AmModulator where
  carrier_freq : ℝ
  modulating_signal : List ℝ
  sample_rate : ℝ

/-- Embeds `AmModulator.modulate` (am_modulator.py lines 37-46):
`t = np.arange(len(signal)) / sample_rate`,
`carrier = np.cos(2 π carrier_freq t)`, return the elementwise product
`signal * carrier`.  The method body contains no assignment, so it is a pure
function of the modulator. -/
noncomputable def AmModulator.modulate (m : AmModulator) : List ℝ :=
  let t := (List.range m.modulating_signal.length).map (fun (nn : ℕ) => (nn : ℝ) / m.sample_rate)
  let carrier_wave := t.map (fun x => Real.cos (2 * Real.pi * m.carrier_freq * x))
  List.zipWith (· * ·) m.modulating_signal carrier_wave

/-- The stored data is a 2-D array. -/
def is2D (st : AudioState) : Prop := ∃ xss, st.audio_data = some (AData.d2 xss)

/-! ### Helper lemmas -/

lemma map_headI_singleton (xs : List ℚ) :
    (xs.map (fun x => [x])).map List.headI = xs := by
  induction xs with
  | nil => rfl
  | cons a l ih => simp [ih]

lemma dataCol_colOf (ys : List ℚ) (sr : Option ℚ) :
    dataCol { audio_data := some (colOf ys), sample_rate := sr } = ys :=
  map_headI_singleton ys

lemma forall_singleton_ne_nil (xs : List ℚ) :
    ∀ row ∈ xs.map (fun x => [x]), ¬ row = [] := by
  simp

lemma oversample_colState_eq (xs : List ℚ) (sr r : ℚ) (hsr : 0 < sr) (hle : sr ≤ r) :
    oversample (colState xs sr) r =
      ({ audio_data := some (colOf
            ((npLinspace xs.length ((⌊(xs.length : ℚ) * (r / sr)⌋).toNat)).map (interpGrid xs))),
         sample_rate := some r }, none) := by
  have hfac : ¬ (r / sr < 1) := by
    rw [not_lt, le_div_iff₀ hsr]; linarith
  simp [oversample, colState, colOf, hfac, forall_singleton_ne_nil, map_headI_singleton,
    Function.comp_def]

lemma npLinspace_length (stop num : ℕ) : (npLinspace stop num).length = num := by
  unfold npLinspace
  rw [List.length_map, List.length_range]

lemma getD_zero_eq_headI (xs : List ℚ) (h : xs ≠ []) : xs.getD 0 0 = xs.headI := by
  cases xs with
  | nil => exact absurd rfl h
  | cons a l => rfl

lemma getLastD_eq_getD (xs : List ℚ) (h : xs ≠ []) :
    xs.getLastD 0 = xs.getD (xs.length - 1) 0 := by
  induction xs with
  | nil => exact absurd rfl h
  | cons a l ih =>
    cases l with
    | nil => rfl
    | cons b m =>
      have := ih (by simp)
      simpa [List.getLastD] using this

lemma interpGrid_nat (xs : List ℚ) (k : ℕ) (hk : k < xs.length) :
    interpGrid xs (k : ℚ) = xs.getD k 0 := by
  unfold interpGrid
  by_cases h0 : (k : ℚ) ≤ 0
  · have hk0 : k = 0 := by exact_mod_cast le_antisymm (by exact_mod_cast h0) (Nat.zero_le k)
    subst hk0
    rw [if_pos h0, getD_zero_eq_headI xs (List.ne_nil_of_length_pos hk)]
  · rw [if_neg h0]
    by_cases h1 : (xs.length : ℚ) - 1 ≤ (k : ℚ)
    · rw [if_pos h1]
      have hne : xs ≠ [] := List.ne_nil_of_length_pos (by omega)
      have hkk : (k : ℚ) = (xs.length : ℚ) - 1 := by
        have : (k : ℚ) + 1 ≤ (xs.length : ℚ) := by exact_mod_cast hk
        linarith
      have hk' : k = xs.length - 1 := by
        have hlen : 1 ≤ xs.length := Nat.one_le_iff_ne_zero.mpr (by
          intro h; rw [h] at hk; exact Nat.not_lt_zero k hk)
        have : (k : ℚ) + 1 = (xs.length : ℚ) := by linarith
        have : (k + 1 : ℕ) = xs.length := by exact_mod_cast this
        omega
      rw [getLastD_eq_getD xs hne, hk']
    · rw [if_neg h1]
      simp [Int.floor_natCast]

lemma interpGrid_clamp (xs : List ℚ) (p : ℚ) (h0 : ¬ p ≤ 0) (h1 : (xs.length : ℚ) - 1 ≤ p) :
    interpGrid xs p = xs.getLastD 0 := by
  unfold interpGrid
  rw [if_neg h0, if_pos h1]

lemma listAbsMax_cons (x : ℚ) (l : List ℚ) :
    listAbsMax (x :: l) = max |x| (listAbsMax l) := rfl

lemma listAbsMax_nonneg (xs : List ℚ) : 0 ≤ listAbsMax xs := by
  induction xs with
  | nil => exact le_rfl
  | cons a l ih => exact le_trans ih (by rw [listAbsMax_cons]; exact le_max_right _ _)

lemma abs_le_listAbsMax (xs : List ℚ) (x : ℚ) (hx : x ∈ xs) : |x| ≤ listAbsMax xs := by
  induction xs with
  | nil => cases hx
  | cons a l ih =>
    rw [listAbsMax_cons]
    rcases List.mem_cons.mp hx with h | h
    · exact h ▸ le_max_left _ _
    · exact le_trans (ih h) (le_max_right _ _)

lemma listAbsMax_eq_zero_iff (xs : List ℚ) :
    listAbsMax xs = 0 ↔ ∀ x ∈ xs, x = 0 := by
  constructor
  · intro h x hx
    have := abs_le_listAbsMax xs x hx
    rw [h] at this
    exact abs_eq_zero.mp (le_antisymm this (abs_nonneg x))
  · intro h
    induction xs with
    | nil => rfl
    | cons a l ih =>
      rw [listAbsMax_cons, h a (List.mem_cons_self a l), abs_zero,
        ih (fun x hx => h x (List.mem_cons_of_mem a hx))]
      exact max_self 0

lemma listAbsMax_map_div (xs : List ℚ) (c : ℚ) (hc : 0 < c) :
    listAbsMax (xs.map (· / c)) = listAbsMax xs / c := by
  induction xs with
  | nil => simp [listAbsMax]
  | cons a l ih =>
    rw [List.map_cons, listAbsMax_cons, listAbsMax_cons, ih, abs_div, abs_of_pos hc,
      max_div_div_right (le_of_lt hc)]

lemma preEmph_cons (x : ℚ) (rest : List ℚ) (alpha : ℚ) :
    preEmph (x :: rest) alpha =
      x :: List.zipWith (fun cur prev => cur - alpha * prev) rest (x :: rest).dropLast := rfl

lemma preEmph_length (xs : List ℚ) (alpha : ℚ) : (preEmph xs alpha).length = xs.length := by
  cases xs with
  | nil => rfl
  | cons x rest =>
    rw [preEmph_cons]
    simp [List.length_zipWith]

lemma zipWith_fst_of_length_le (as bs : List ℚ) (h : as.length ≤ bs.length) :
    List.zipWith (fun a _ => a) as bs = as := by
  induction as generalizing bs with
  | nil => rfl
  | cons a l ih =>
    cases bs with
    | nil => simp at h
    | cons b m =>
      simp only [List.zipWith_cons_cons, List.cons.injEq, true_and]
      exact ih m (by simpa using h)

lemma preEmph_alpha_zero (xs : List ℚ) : preEmph xs 0 = xs := by
  cases xs with
  | nil => rfl
  | cons x rest =>
    rw [preEmph_cons]
    simp only [zero_mul, sub_zero]
    rw [zipWith_fst_of_length_le rest ((x :: rest).dropLast) (by simp)]

lemma preEmph_getD_succ (xs : List ℚ) (alpha : ℚ) (n : ℕ) (hn : n + 1 < xs.length) :
    (preEmph xs alpha).getD (n + 1) 0 = xs.getD (n + 1) 0 - alpha * xs.getD n 0 := by
  cases xs with
  | nil => simp at hn
  | cons x rest =>
    rw [preEmph_cons]
    have hlen : n < (List.zipWith (fun cur prev => cur - alpha * prev) rest
        ((x :: rest).dropLast)).length := by
      simp only [List.length_zipWith, List.length_dropLast, List.length_cons,
        Nat.add_sub_cancel, min_self]
      simpa using hn
    have hrest : n < rest.length := by simpa using hn
    have hdl : n < ((x :: rest).dropLast).length := by
      simp only [List.length_dropLast, List.length_cons, Nat.add_sub_cancel]
      exact hrest
    rw [List.getD_cons_succ, List.getD_eq_getElem _ _ hlen, List.getElem_zipWith]
    rw [List.getD_cons_succ, List.getD_eq_getElem _ _ hrest]
    have hxl : n < (x :: rest).length := by simp; omega
    rw [List.getElem_dropLast, List.getD_eq_getElem _ _ hxl]

lemma interpGrid_zero (xs : List ℚ) : interpGrid xs 0 = xs.headI := by
  unfold interpGrid
  rw [if_pos le_rfl]

lemma head_map_npLinspace (xs : List ℚ) (stop num : ℕ) (h : 0 < num) :
    ((npLinspace stop num).map (interpGrid xs)).getD 0 0 = interpGrid xs 0 := by
  unfold npLinspace
  cases num with
  | zero => omega
  | succ m =>
    rw [List.range_succ_eq_map, List.map_cons, List.map_cons, List.getD_cons_zero]
    norm_num

/-! ### Claims -/

lemma example_8to16_index4 :
    (dataCol (oversample (colState [1/2, -1/2, 1, -1] 8) 16).1).getD 4 0 = 3 / 7 := by
  rw [oversample_colState_eq [1/2, -1/2, 1, -1] 8 16 (by norm_num) (by norm_num), dataCol_colOf]
  have hfl : ((⌊(([1/2, -1/2, 1, -1] : List ℚ).length : ℚ) * ((16 : ℚ) / 8)⌋).toNat) = 8 := by
    norm_num
    rfl
  rw [hfl]
  norm_num [npLinspace, interpGrid, List.range_succ]
  norm_num [show ((2 : ℤ).toNat) = 2 from rfl]

/-- C1, counterexample: oversampling the 4-sample buffer
`[0.5, -0.5, 1.0, -1.0]` from 8 Hz to 16 Hz yields `3/7` at output index 4,
not the original index-2 value `1.0` the claim asserts. -/
theorem C1_cex :
    (dataCol (oversample (colState [1/2, -1/2, 1, -1] 8) 16).1).getD 4 0 = 3 / 7 ∧
    ((3 : ℚ) / 7) ≠ 1 :=
  ⟨example_8to16_index4, by norm_num⟩

/-- C1, amended: for a non-empty source buffer and a target rate strictly
above the source rate, `oversample` produces output sample `i` by linear
interpolation at the fractional source position `p_i = i * N / (N' - 1)`
(`np.linspace(0, N, N')`, endpoint included) — not at `i / ratio` — clamping
at the last source index and returning the source sample unchanged when the
position is exactly an integer index; in the spec's 8-to-16 Hz example the
output sample at index 4 is therefore `3/7`, not `1.0`. -/
theorem C1_amended (xs : List ℚ) (sr r : ℚ) (hne : xs ≠ []) (hsr : 0 < sr) (hr : sr < r) :
    (oversample (colState xs sr) r).2 = none ∧
    dataCol (oversample (colState xs sr) r).1 =
      (List.range ((⌊(xs.length : ℚ) * (r / sr)⌋).toNat)).map
        (fun (i : ℕ) => interpGrid xs ((i : ℚ) * (xs.length : ℚ) /
          ((((⌊(xs.length : ℚ) * (r / sr)⌋).toNat - 1 : ℕ)) : ℚ))) ∧
    (∀ k : ℕ, k < xs.length → interpGrid xs (k : ℚ) = xs.getD k 0) ∧
    (∀ p : ℚ, 0 < p → (xs.length : ℚ) - 1 ≤ p → interpGrid xs p = xs.getLastD 0) ∧
    (dataCol (oversample (colState [1/2, -1/2, 1, -1] 8) 16).1).getD 4 0 = 3 / 7 := by
  rw [oversample_colState_eq xs sr r hsr (le_of_lt hr)]
  refine ⟨rfl, ?_, fun k hk => interpGrid_nat xs k hk,
    fun p hp h1 => interpGrid_clamp xs p (not_le.mpr hp) h1, example_8to16_index4⟩
  rw [dataCol_colOf]
  simp [npLinspace, List.map_map, Function.comp_def]

/-- C1 witness: the amended theorem applied to the concrete 8-to-16 Hz
example. -/
theorem C1_witness : (oversample (colState [1/2, -1/2, 1, -1] 8) 16).2 = none :=
  (C1_amended [1/2, -1/2, 1, -1] 8 16 (by decide) (by norm_num) (by norm_num)).1

/-- C2, counterexample: a 3-sample buffer at 5 Hz oversampled to 8 Hz yields
`int(3 * 8/5) = 4` samples, while `round(3 * 8/5) = round(4.8) = 5`: the
sample count is truncated, not rounded. -/
theorem C2_cex :
    (dataCol (oversample (colState [1, 2, 3] 5) 8).1).length = 4 ∧
    round ((3 : ℚ) * 8 / 5) = 5 ∧ (4 : ℤ) ≠ 5 := by
  refine ⟨?_, ?_, by decide⟩
  · rw [oversample_colState_eq [1, 2, 3] 5 8 (by norm_num) (by norm_num), dataCol_colOf,
      List.length_map, npLinspace_length]
    norm_num
    rfl
  · rw [round_eq]
    norm_num

/-- C2, amended: for every non-empty buffer and target rate strictly greater
than the source rate, `oversample` returns a buffer with exactly
`int(len(samples) * r / sample_rate)` samples (floor, i.e. truncation, not
rounding) and with sample rate equal to `r`. -/
theorem C2_amended (xs : List ℚ) (sr r : ℚ) (hne : xs ≠ []) (hsr : 0 < sr) (hr : sr < r) :
    (oversample (colState xs sr) r).2 = none ∧
    (dataCol (oversample (colState xs sr) r).1).length
      = (⌊(xs.length : ℚ) * (r / sr)⌋).toNat ∧
    (oversample (colState xs sr) r).1.sample_rate = some r := by
  rw [oversample_colState_eq xs sr r hsr (le_of_lt hr)]
  refine ⟨rfl, ?_, rfl⟩
  rw [dataCol_colOf, List.length_map, npLinspace_length]

/-- C2 witness: the amended theorem applied to a 2-sample buffer at 4 Hz,
target 6 Hz. -/
theorem C2_witness :
    (dataCol (oversample (colState [1, 2] 4) 6).1).length
      = (⌊((([1, 2] : List ℚ).length : ℚ)) * ((6 : ℚ) / 4)⌋).toNat :=
  (C2_amended [1, 2] 4 6 (by decide) (by norm_num) (by norm_num)).2.1

/-- C3: evaluating the code at the failing input: a target rate exactly equal
to the source rate passes the `factor < 1` check, so `oversample` completes
without raising and even rebinds the sample rate — contradicting the code's
own error message, which demands a strictly greater output frequency. -/
theorem C3_equal_rate_not_rejected :
    (oversample (colState [1/2, -1/2, 1, -1] 8) 8).2 = none ∧
    (oversample (colState [1/2, -1/2, 1, -1] 8) 8).1.sample_rate = some 8 := by
  constructor <;> simp [oversample, colState, colOf]

/-- C8: the first sample of the oversampled output equals the first source
sample exactly (the first interpolation position is `0`). -/
theorem C8_first_sample (xs : List ℚ) (sr r : ℚ) (hne : xs ≠ []) (hsr : 0 < sr) (hr : sr < r) :
    (oversample (colState xs sr) r).2 = none ∧
    (dataCol (oversample (colState xs sr) r).1).getD 0 0 = xs.getD 0 0 := by
  rw [oversample_colState_eq xs sr r hsr (le_of_lt hr)]
  refine ⟨rfl, ?_⟩
  rw [dataCol_colOf]
  have hN : 1 ≤ xs.length := List.length_pos.mpr hne
  have hfac : 1 < r / sr := (one_lt_div hsr).mpr hr
  have hnum : 0 < (⌊(xs.length : ℚ) * (r / sr)⌋).toNat := by
    have h1 : (1 : ℚ) ≤ (xs.length : ℚ) * (r / sr) := by
      have hx : (1 : ℚ) ≤ (xs.length : ℚ) := by exact_mod_cast hN
      nlinarith
    have h2 : (1 : ℤ) ≤ ⌊(xs.length : ℚ) * (r / sr)⌋ := Int.le_floor.mpr (by exact_mod_cast h1)
    omega
  rw [head_map_npLinspace xs xs.length _ hnum, interpGrid_zero, getD_zero_eq_headI xs hne]

/-- C8 witness: the theorem applied to the spec's 8-to-16 Hz example. -/
theorem C8_witness :
    (dataCol (oversample (colState [1/2, -1/2, 1, -1] 8) 16).1).getD 0 0
      = ([1/2, -1/2, 1, -1] : List ℚ).getD 0 0 :=
  (C8_first_sample [1/2, -1/2, 1, -1] 8 16 (by decide) (by norm_num) (by norm_num)).2

/-- C10: when the stored data and rate are set and the requested rate makes
`output_frequency / sample_rate < 1`, `oversample` raises with the stored
samples and sample rate unchanged: the rate check precedes every mutation. -/
theorem C10_error_atomic (st : AudioState) (ad : AData) (sr r : ℚ)
    (had : st.audio_data = some ad) (hsr : st.sample_rate = some sr) (hlt : r / sr < 1) :
    oversample st r =
      (st, some "Output frequency must be greater than the original sample rate.") := by
  rcases st with ⟨d, s⟩
  simp only at had hsr
  subst had hsr
  simp [oversample, hlt]

/-- C10 witness: the theorem applied to a loaded 1-sample buffer at 8 Hz with
target 4 Hz. -/
theorem C10_witness :
    oversample (colState [1] 8) 4 =
      (colState [1] 8, some "Output frequency must be greater than the original sample rate.") :=
  C10_error_atomic (colState [1] 8) (colOf [1]) 8 4 rfl rfl (by norm_num)

/-- C4: on a non-empty 1-D buffer, `normalize_data` fails with the
degenerate-signal error exactly when every sample is zero; otherwise it
divides every sample by the peak `max |sample|`, and the result has peak
exactly `1` with every sample in `[-1, 1]`. -/
theorem C4_normalize (xs : List ℚ) (sr : ℚ) (hne : xs ≠ []) :
    ((∀ x ∈ xs, x = 0) →
      normalize_data { audio_data := some (AData.d1 xs), sample_rate := some sr } =
        ({ audio_data := some (AData.d1 xs), sample_rate := some sr },
          some "Audio data cannot be normalized because it contains only zeros.")) ∧
    (¬ (∀ x ∈ xs, x = 0) →
      normalize_data { audio_data := some (AData.d1 xs), sample_rate := some sr } =
        ({ audio_data := some (colOf (xs.map (· / listAbsMax xs))), sample_rate := some sr },
          none) ∧
      listAbsMax (xs.map (· / listAbsMax xs)) = 1 ∧
      ∀ y ∈ xs.map (· / listAbsMax xs), -1 ≤ y ∧ y ≤ 1) := by
  have hsz : ¬ ((AData.d1 xs).size = 0) := by
    simpa [AData.size, List.length_eq_zero] using hne
  constructor
  · intro hz
    have hmax : (AData.d1 xs).absMax = 0 := (listAbsMax_eq_zero_iff xs).mpr hz
    simp [normalize_data, hsz, hmax]
  · intro hnz
    push_neg at hnz
    obtain ⟨x, hxmem, hxne⟩ := hnz
    have hpos : 0 < listAbsMax xs :=
      lt_of_lt_of_le (abs_pos.mpr hxne) (abs_le_listAbsMax xs x hxmem)
    have hmaxne : ¬ (listAbsMax xs = 0) := ne_of_gt hpos
    refine ⟨?_, ?_, ?_⟩
    · simp [normalize_data, hsz, hmaxne, AData.absMax, AData.divBy]
    · rw [listAbsMax_map_div xs _ hpos, div_self (ne_of_gt hpos)]
    · intro y hy
      obtain ⟨z, hzmem, rfl⟩ := List.mem_map.mp hy
      have h1 : |z / listAbsMax xs| ≤ 1 := by
        rw [abs_div, abs_of_pos hpos]
        exact (div_le_one hpos).mpr (abs_le_listAbsMax xs z hzmem)
      exact abs_le.mp h1

/-- C4 witness: the theorem applied to the non-zero buffer `[1, -2]`. -/
theorem C4_witness :
    listAbsMax (([1, -2] : List ℚ).map (· / listAbsMax [1, -2])) = 1 :=
  ((C4_normalize [1, -2] 8 (by decide)).2 (by norm_num)).2.1

/-- C5: `AmModulator.modulate` returns the elementwise product of the
modulating signal with the carrier `cos(2π · f · n / sample_rate)`; the
output length equals the input length (and the modulator, a pure function,
leaves its fields and the input buffer untouched). -/
theorem C5_modulate (m : AmModulator) (n : ℕ) (hn : n < m.modulating_signal.length) :
    m.modulate.length = m.modulating_signal.length ∧
    m.modulate.getD n 0 = m.modulating_signal.getD n 0 *
      Real.cos (2 * Real.pi * m.carrier_freq * ((n : ℝ) / m.sample_rate)) := by
  have hlen : m.modulate.length = m.modulating_signal.length := by
    simp [AmModulator.modulate, List.length_zipWith]
  refine ⟨hlen, ?_⟩
  have hn' : n < m.modulate.length := hlen ▸ hn
  rw [List.getD_eq_getElem _ _ hn', List.getD_eq_getElem _ _ hn]
  simp only [AmModulator.modulate, List.getElem_zipWith, List.getElem_map, List.getElem_range]

/-- C5 witness: the theorem applied to a 2-sample signal at 16 Hz with a 4 Hz
carrier, index 1. -/
theorem C5_witness :
    (AmModulator.mk 4 [1, 1/2] 16).modulate.getD 1 0 =
      ([1, 1/2] : List ℝ).getD 1 0 * Real.cos (2 * Real.pi * 4 * (((1 : ℕ) : ℝ) / 16)) :=
  (C5_modulate (AmModulator.mk 4 [1, 1/2] 16) 1 (by norm_num)).2

/-- C6: on a non-empty 1-D buffer, `pre_emphasize` stores the recurrence
`y[0] = x[0]`, `y[n] = x[n] - alpha * x[n-1]`; for `alpha = 0` the output
equals the input exactly, and the recurrence is idempotent if and only if
`alpha = 0`. -/
theorem C6_pre_emphasize (xs : List ℚ) (sr alpha : ℚ) (hne : xs ≠ []) :
    pre_emphasize { audio_data := some (AData.d1 xs), sample_rate := some sr } alpha =
      ({ audio_data := some (colOf (preEmph xs alpha)), sample_rate := some sr }, none) ∧
    (preEmph xs alpha).getD 0 0 = xs.getD 0 0 ∧
    (∀ n : ℕ, n + 1 < xs.length →
      (preEmph xs alpha).getD (n + 1) 0 = xs.getD (n + 1) 0 - alpha * xs.getD n 0) ∧
    preEmph xs 0 = xs ∧
    ((∀ ys : List ℚ, preEmph (preEmph ys alpha) alpha = preEmph ys alpha) ↔ alpha = 0) := by
  refine ⟨?_, ?_, fun n hn => preEmph_getD_succ xs alpha n hn, preEmph_alpha_zero xs, ?_⟩
  · have hemp : xs.isEmpty = false := by
      cases xs with
      | nil => exact absurd rfl hne
      | cons a l => rfl
    simp [pre_emphasize, hemp]
  · cases xs with
    | nil => exact absurd rfl hne
    | cons x rest => rw [preEmph_cons, List.getD_cons_zero, List.getD_cons_zero]
  · constructor
    · intro h
      have h2 := h [1, 0]
      simp [preEmph_cons, List.zipWith, List.dropLast] at h2
      linarith
    · rintro rfl
      intro ys
      rw [preEmph_alpha_zero, preEmph_alpha_zero]

/-- C6 witness: the theorem applied to the buffer `[1/2, -1/2]` with
`alpha = 97/100`. -/
theorem C6_witness :
    pre_emphasize { audio_data := some (AData.d1 [1/2, -1/2]), sample_rate := some 8 }
        (97/100) =
      ({ audio_data := some (colOf (preEmph [1/2, -1/2] (97/100))), sample_rate := some 8 },
        none) :=
  (C6_pre_emphasize [1/2, -1/2] 8 (97/100) (by decide)).1

/-- C7, counterexample: `monotone` on an empty 1-D buffer (`np.array([])`,
which has `ndim = 1`) succeeds and stores an empty column — it does not fail,
contrary to the claim that every empty buffer is rejected. -/
theorem C7_cex :
    monotone { audio_data := some (AData.d1 []), sample_rate := some 8 } =
      ({ audio_data := some (AData.d2 []), sample_rate := some 8 }, none) := rfl

/-- C7, amended: `monotone` fails when no data is loaded or the data is
zero-dimensional, but an empty 1-D buffer is converted without error; for
every non-empty multi-channel buffer it collapses to one channel whose sample
at each index is the average of that index's values across all channels. -/
theorem C7_amended (sr : Option ℚ) (x : ℚ) (xss : List (List ℚ)) (hxss : xss ≠ []) :
    (monotone { audio_data := none, sample_rate := sr }).2 =
      some "Audio data is not loaded. Please load an audio file first." ∧
    (monotone { audio_data := some (AData.d0 x), sample_rate := sr }).2 =
      some "Audio data is not valid. Ensure the audio file is loaded correctly." ∧
    monotone { audio_data := some (AData.d2 xss), sample_rate := sr } =
      ({ audio_data := some (colOf (xss.map (fun row => row.sum / (row.length : ℚ)))),
         sample_rate := sr }, none) ∧
    (monotone { audio_data := some (AData.d1 []), sample_rate := sr }).2 = none :=
  ⟨rfl, rfl, rfl, rfl⟩

/-- C7 witness: the theorem applied to the stereo buffer `[[1,3],[2,4]]`. -/
theorem C7_witness :
    monotone { audio_data := some (AData.d2 [[1, 3], [2, 4]]), sample_rate := some 8 } =
      ({ audio_data := some (colOf (([[1, 3], [2, 4]] : List (List ℚ)).map
          (fun row => row.sum / (row.length : ℚ)))), sample_rate := some 8 }, none) :=
  (C7_amended (some 8) 1 [[1, 3], [2, 4]] (by decide)).2.2.1

/-- C9: a successful `monotone` always stores a 2-D (N, 1) column;
`pre_emphasize` raises whenever the stored data is 2-D; every processing
method keeps 2-D data 2-D (so the buffer can never become 1-D again after
`monotone`); hence the pipeline `monotone → normalize_data → pre_emphasize`
always ends in an error. -/
theorem C9_monotone_blocks_pre_emphasis :
    (∀ st st', monotone st = (st', none) → ∃ ys, st'.audio_data = some (colOf ys)) ∧
    (∀ st alpha, is2D st →
      pre_emphasize st alpha = (st, some "Pre-emphasis can only be applied to mono audio data.")) ∧
    (∀ st, is2D st → is2D (monotone st).1) ∧
    (∀ st, is2D st → is2D (normalize_data st).1) ∧
    (∀ st alpha, is2D st → is2D (pre_emphasize st alpha).1) ∧
    (∀ st r, is2D st → is2D (oversample st r).1) ∧
    (∀ st st' alpha, monotone st = (st', none) →
      ((pre_emphasize (normalize_data st').1 alpha).2).isSome) := by
  have h2 : ∀ st alpha, is2D st →
      pre_emphasize st alpha = (st, some "Pre-emphasis can only be applied to mono audio data.") := by
    rintro ⟨d, s⟩ alpha ⟨xss, hd⟩
    simp only at hd
    subst hd
    rfl
  have h1 : ∀ st st', monotone st = (st', none) → ∃ ys, st'.audio_data = some (colOf ys) := by
    rintro ⟨d, s⟩ st' h
    match d with
    | none => simp [monotone] at h
    | some (.d0 x) => simp [monotone, AData.ndim] at h
    | some (.d1 xs) =>
      simp [monotone, AData.ndim, Prod.ext_iff] at h
      exact ⟨xs, by rw [← h]⟩
    | some (.d2 xss) =>
      simp [monotone, AData.ndim, AData.meanAxis1, Prod.ext_iff] at h
      exact ⟨_, by rw [← h]⟩
  have h4 : ∀ st, is2D st → is2D (normalize_data st).1 := by
    rintro ⟨d, s⟩ ⟨xss, hd⟩
    simp only at hd
    subst hd
    unfold normalize_data
    by_cases hsz : (AData.d2 xss).size = 0
    · simp only [hsz, if_pos rfl]
      exact ⟨xss, rfl⟩
    · by_cases hmx : (AData.d2 xss).absMax = 0
      · simp [hsz, hmx]
        exact ⟨xss, rfl⟩
      · simp only [hsz, hmx, AData.divBy, if_neg, ite_false]
        exact ⟨_, rfl⟩
  refine ⟨h1, h2, ?_, h4, ?_, ?_, ?_⟩
  · rintro ⟨d, s⟩ ⟨xss, hd⟩
    simp only at hd
    subst hd
    exact ⟨_, rfl⟩
  · rintro ⟨d, s⟩ alpha h2d
    rw [h2 _ alpha h2d]
    exact h2d
  · rintro ⟨d, s⟩ r ⟨xss, hd⟩
    simp only at hd
    subst hd
    unfold oversample
    match s with
    | none => exact ⟨xss, rfl⟩
    | some sr =>
      by_cases hfac : r / sr < 1
      · simp only [hfac, if_pos rfl]
        exact ⟨xss, rfl⟩
      · by_cases hrow : xss.all (fun row => !row.isEmpty)
        · simp only [hfac, hrow, colOf, List.map_map, if_neg, ite_false, ite_true]
          exact ⟨_, rfl⟩
        · simp [hfac, hrow]
          exact ⟨xss, rfl⟩
  · intro st st' alpha h
    obtain ⟨ys, hys⟩ := h1 st st' h
    have h2d : is2D st' := ⟨_, hys⟩
    have h2d' : is2D (normalize_data st').1 := h4 st' h2d
    rw [h2 _ alpha h2d']
    rfl

/-- C9 witness: the pipeline conjunct applied to a loaded mono 1-sample
buffer. -/
theorem C9_witness :
    ((pre_emphasize
      (normalize_data { audio_data := some (AData.d2 [[1]]), sample_rate := some (8 : ℚ) }).1
      (97/100)).2).isSome :=
  C9_monotone_blocks_pre_emphasis.2.2.2.2.2.2
    { audio_data := some (AData.d1 [1]), sample_rate := some 8 }
    { audio_data := some (AData.d2 [[1]]), sample_rate := some 8 } (97/100) rfl

end AdPiFw
